import Mathlib

/-!
# Verification of the minigo generic CRUD engine

Shallow embedding of the core of the `minigo` repository:

* the trigger-maintained counter cache (`utils/database.go`:
  `CreateCounter4Table`, `createMySQLTriggers`, `createPostgresTriggers`,
  `createSQLiteTriggers`);
* the generic list/create/update/delete handlers
  (`controllers/generic.go`);
* the per-request transaction middleware
  (`middlewares/transaction.go`).

Machine integers are modelled as `Int`/`Nat`; the database is modelled as
explicit lists of rows; gorm soft-delete semantics (`UPDATE ... SET
deleted_at = ts WHERE ... AND deleted_at = 0`) are made explicit.
-/

namespace Minigo

/-! ## Counter cache and triggers (`utils/database.go`) -/

/-- A row of a tracked table: only the primary key and the soft-delete
marker matter to the counter triggers.  `deleted_at = 0` means the row is
live (gorm `soft_delete.DeletedAt`, "zero means active"). -/
structure Row where
  id : Nat
  deleted_at : Nat
  deriving DecidableEq, Repr

/-- State of one tracked table together with its `counters` row. -/
structure TableState where
  rows : List Row
  counter : Int
  deriving Repr

/-- `SELECT COUNT(*) FROM t WHERE deleted_at = 0`, the quantity the
counters row is supposed to track. -/
def liveCount : List Row → Int
  | [] => 0
  | r :: rest => (if r.deleted_at = 0 then 1 else 0) + liveCount rest

/-- Supported backends of `CreateCounter4Table`. -/
inductive Backend where
  | sqlite
  | mysql
  | postgres
  deriving DecidableEq, Repr

/-- Counter delta fired by the AFTER INSERT trigger for one inserted row.

From the source: the MySQL and PostgreSQL insert triggers guard with
`IF NEW.deleted_at = 0 THEN counter + 1`, while the SQLite trigger
(`createSQLiteTriggers`) increments unconditionally on every insert. -/
def insertDelta (b : Backend) (newDel : Nat) : Int :=
  match b with
  | .sqlite => 1
  | .mysql => if newDel = 0 then 1 else 0
  | .postgres => if newDel = 0 then 1 else 0

/-- Counter delta fired by the two AFTER UPDATE triggers
(`after_<t>_update` and `after_<t>_update_restore`) for one updated row:
`-1` on a live→deleted transition, `+1` on a deleted→live transition.
This is the same on all three backends. -/
def updateDelta (oldDel newDel : Nat) : Int :=
  (if oldDel = 0 ∧ ¬ newDel = 0 then -1 else 0)
    + (if ¬ oldDel = 0 ∧ newDel = 0 then 1 else 0)

/-- `UPDATE t SET deleted_at = newDel WHERE cond`, returning the new row
list together with the summed trigger deltas (the AFTER UPDATE triggers
fire once per affected row). -/
def updateRows (cond : Row → Bool) (newDel : Nat) : List Row → List Row × Int
  | [] => ([], 0)
  | r :: rest =>
    let (rs, d) := updateRows cond newDel rest
    if cond r then ({ r with deleted_at := newDel } :: rs, updateDelta r.deleted_at newDel + d)
    else (r :: rs, d)

/-- The operations of the claim: `create` is the INSERT issued by
`genericCreate` (gorm inserts with `deleted_at = 0`); `softDelete` is the
gorm soft delete issued by `genericDelete`/`genericBatchDelete`
(`UPDATE ... SET deleted_at = ts WHERE id = ? AND deleted_at = 0`, with
`ts` a nonzero timestamp, modelled as `ts + 1`); `restore` sets
`deleted_at = 0` on the rows with the given id. -/
inductive Op where
  | create (id : Nat)
  | softDelete (id : Nat) (ts : Nat)
  | restore (id : Nat)
  deriving DecidableEq, Repr

/-- One operation against the table, with the backend's triggers
maintaining the counter. -/
def applyOp (b : Backend) (s : TableState) : Op → TableState
  | .create i =>
    { rows := s.rows ++ [{ id := i, deleted_at := 0 }]
      counter := s.counter + insertDelta b 0 }
  | .softDelete i ts =>
    let (rs, d) := updateRows (fun r => r.id = i && r.deleted_at = 0) (ts + 1) s.rows
    { rows := rs, counter := s.counter + d }
  | .restore i =>
    let (rs, d) := updateRows (fun r => r.id = i) 0 s.rows
    { rows := rs, counter := s.counter + d }

/-- The state established by `CreateCounter4Table`'s registration SQL:
`INSERT INTO counters (name, counter) VALUES (t, (SELECT COUNT(*) FROM t
WHERE deleted_at = 0))`. -/
def registerState (rows : List Row) : TableState :=
  { rows := rows, counter := liveCount rows }

/-- Run a sequence of operations. -/
def runOps (b : Backend) (s : TableState) (ops : List Op) : TableState :=
  ops.foldl (applyOp b) s

theorem liveCount_append (xs ys : List Row) :
    liveCount (xs ++ ys) = liveCount xs + liveCount ys := by
  induction xs with
  | nil => simp [liveCount]
  | cons r rest ih => simp [liveCount, ih]; ring

theorem liveCount_updateRows (cond : Row → Bool) (newDel : Nat) (rows : List Row) :
    liveCount (updateRows cond newDel rows).1
      = liveCount rows + (updateRows cond newDel rows).2 := by
  induction rows with
  | nil => simp [updateRows, liveCount]
  | cons r rest ih =>
    by_cases hc : cond r
    · simp only [updateRows, hc, if_true, liveCount]
      rw [ih]
      by_cases ho : r.deleted_at = 0 <;> by_cases hn : newDel = 0 <;>
        simp [updateDelta, ho, hn] <;> ring
    · simp only [updateRows, hc, if_false, liveCount, Bool.false_eq_true]
      rw [ih]; ring

theorem applyOp_invariant (b : Backend) (s : TableState) (op : Op)
    (h : s.counter = liveCount s.rows) :
    (applyOp b s op).counter = liveCount (applyOp b s op).rows := by
  cases op with
  | create i =>
    simp only [applyOp, liveCount_append, h, liveCount]
    cases b <;> simp [insertDelta]
  | softDelete i ts =>
    simp only [applyOp, liveCount_updateRows, h]
  | restore i =>
    simp only [applyOp, liveCount_updateRows, h]

/-- Claim C1: starting from the registration state, any sequence of Create,
soft-Delete and Restore operations leaves the counters row equal to the
number of rows with `deleted_at = 0`, on every supported backend
(SQLite included), the counter being maintained purely by the per-row
trigger increments. -/
theorem counter_consistency (b : Backend) (init : List Row) (ops : List Op) :
    (runOps b (registerState init) ops).counter
      = liveCount (runOps b (registerState init) ops).rows := by
  suffices h : ∀ s : TableState, s.counter = liveCount s.rows →
      (runOps b s ops).counter = liveCount (runOps b s ops).rows from
    h (registerState init) rfl
  induction ops with
  | nil => intro s hs; simpa [runOps] using hs
  | cons op rest ih =>
    intro s hs
    have h1 := applyOp_invariant b s op hs
    simpa [runOps] using ih (applyOp b s op) h1

/-! ## `genericList` (`controllers/generic.go`): pagination, filters,
total-count policy -/

/-- Go `strconv.Atoi`, the error-detecting part: `none` on a syntax
error (empty string, bare sign, non-digit character), `some n` on an
optional sign followed by decimal digits, as the unbounded parsed value.
(On 64-bit range overflow Go's `ParseInt` returns the value clamped to
the int64 range together with `ErrRange`; `goAtoi` below applies that
clamping, the error itself being discarded by the handler.) -/
def parseDigitsAux : List Char → Nat → Option Nat
  | [], acc => some acc
  | c :: cs, acc =>
    if c.isDigit then parseDigitsAux cs (acc * 10 + (c.toNat - 48)) else none

def atoiOpt (s : String) : Option Int :=
  match s.data with
  | [] => none
  | '-' :: cs =>
    if cs = [] then none else (parseDigitsAux cs 0).map (fun n => -(n : Int))
  | '+' :: cs =>
    if cs = [] then none else (parseDigitsAux cs 0).map (fun n => (n : Int))
  | cs => (parseDigitsAux cs 0).map (fun n => (n : Int))

def Int64Min : Int := -(2 ^ 63)

def Int64Max : Int := 2 ^ 63 - 1

/-- Two's-complement wrap of an unbounded integer into the int64 range:
what Go's 64-bit `int` arithmetic produces on overflow. -/
def wrap64 (n : Int) : Int :=
  (n + 2 ^ 63) % 2 ^ 64 - 2 ^ 63

/-- `page, _ := strconv.Atoi(...)`: the handler discards the error, so a
syntax error leaves the Go zero value `0`, and a value beyond the int64
range keeps `ParseInt`'s clamped value (its `ErrRange` is discarded
too). -/
def goAtoi (s : String) : Int :=
  match atoiOpt s with
  | none => 0
  | some n => if n < Int64Min then Int64Min else if n > Int64Max then Int64Max else n

/-- `c.DefaultQuery(key, dflt)`: the first value for `key` in the query
string, or `dflt` when the key is absent. -/
def getQuery (params : List (String × String)) (key dflt : String) : String :=
  match params.find? (fun p => p.1 == key) with
  | some p => p.2
  | none => dflt

def MaxPageSize : Int := 10000

/-- `page, _ := strconv.Atoi(c.DefaultQuery("page", "1"))` — no lower
clamp is applied. -/
def effPage (params : List (String × String)) : Int :=
  goAtoi (getQuery params "page" "1")

/-- `pageSize := min(atoi(c.DefaultQuery("page_size", "10")), MaxPageSize)`. -/
def effPageSize (params : List (String × String)) : Int :=
  min (goAtoi (getQuery params "page_size" "10")) MaxPageSize

/-- `offset := (page - 1) * pageSize`, computed in Go's wrapping 64-bit
`int` arithmetic (both the subtraction and the multiplication wrap on
overflow). -/
def rowOffset (params : List (String × String)) : Int :=
  wrap64 (wrap64 (effPage params - 1) * effPageSize params)

/-- A WHERE predicate added by `genericList`: `field = ?` or
`field LIKE %value%`. -/
inductive Filter where
  | fieldEq (field value : String)
  | fieldLike (field value : String)
  deriving DecidableEq, Repr

/-- Go `strings.TrimSuffix`. -/
def trimSuffixStr (s suffix : String) : String :=
  if s.endsWith suffix then s.dropRight suffix.length else s

def reservedKeys : List String := ["page", "page_size", "order", "search"]

/-- The per-key body of the `for key, values := range queryParams` loop
of `genericList` (lines 150-168): skip reserved keys, skip keys that are
not in `allowedQueryFields` (the `ctags` `q` whitelist), then build a
LIKE predicate for keys ending in `_contains` and an equality predicate
otherwise.  Note the whitelist test runs on the *unmodified* key,
`_contains` suffix included. -/
def processParam (allowedQueryFields : List String) (key value : String) : Option Filter :=
  if reservedKeys.contains key then none
  else if !(allowedQueryFields.contains key) then none
  else if key.endsWith "_contains" then
    some (.fieldLike (trimSuffixStr key "_contains") ("%" ++ value ++ "%"))
  else some (.fieldEq key value)

/-- All field filters applied to the query for a request. -/
def appliedFilters (allowedQueryFields : List String)
    (params : List (String × String)) : List Filter :=
  params.filterMap (fun p => processParam allowedQueryFields p.1 p.2)

/-- The OR-combined search predicates (lines 108-146): one
`col LIKE %search%` per string-kind column, `password` excluded; empty
when the search parameter is empty. -/
def searchFilters (stringCols : List String) (searchParam : String) : List Filter :=
  if searchParam = "" then []
  else (stringCols.filter (fun c => ¬ c = "password")).map
    (fun c => .fieldLike c ("%" ++ searchParam ++ "%"))

/-- `useCounter`: starts `true`, set `false` when the search loop added
conditions (`len(orConditions) > 0`) or when any field filter was
applied. -/
def useCounterFlag (stringCols : List String) (allowedQueryFields : List String)
    (params : List (String × String)) : Bool :=
  (searchFilters stringCols (getQuery params "search" "")).isEmpty
    && (appliedFilters allowedQueryFields params).isEmpty

/-- Outcome of gorm `db.Raw("SELECT (counter) FROM counters WHERE name =
?", t).Scan(&total)`: `err` is whether `status.Error != nil`; `rows` the
returned rows.  gorm's `Scan` leaves the destination untouched and
reports no error when zero rows are returned (`ErrRecordNotFound` is
raised only by `First`/`Take`/`Last`). -/
structure ScanOutcome where
  err : Bool
  rows : List Int
  deriving DecidableEq, Repr

/-- The counter read against the `counters` table (one entry per table
name); `infraErr` models an infrastructure failure of the query itself. -/
def rawSelectCounter (counters : List (String × Int)) (table : String)
    (infraErr : Bool) : ScanOutcome :=
  if infraErr then { err := true, rows := [] }
  else { err := false, rows := (counters.filter (fun p => p.1 == table)).map Prod.snd }

/-- Result of the total computation of `genericList` (lines 192-201),
recording which path produced it. -/
structure TotalResult where
  total : Int
  consultedCounter : Bool
  usedFallback : Bool
  deriving DecidableEq, Repr

/-- Lines 192-201 of `generic.go`: `var total int64` (zero value `0`);
if `useCounter`, scan the counters row into `total` and re-count over
the query only when `status.Error != nil`; otherwise count over the
query directly. -/
def listTotal (stringCols allowedQueryFields : List String)
    (params : List (String × String)) (counters : List (String × Int))
    (table : String) (infraErr : Bool) (directCount : Int) : TotalResult :=
  if useCounterFlag stringCols allowedQueryFields params then
    let scan := rawSelectCounter counters table infraErr
    if scan.err then
      { total := directCount, consultedCounter := true, usedFallback := true }
    else
      { total := scan.rows.headD 0, consultedCounter := true, usedFallback := false }
  else { total := directCount, consultedCounter := false, usedFallback := false }

/-- Claim C2, counterexample: with no filter and no search applied, a
*missing* counters row does not make `status.Error` non-nil, so the
fallback `query.Count` is not taken: the response total is the untouched
zero value `0`, not the direct count (here `3`).  This refutes "whenever
that counter read fails or the counter row is missing or unreadable,
List falls back to a direct count over the query". -/
theorem missing_counter_row_no_fallback :
    listTotal ["username", "email", "password"] ["username", "email"]
        [] [] "users" false 3
      = { total := 0, consultedCounter := true, usedFallback := false }
    ∧ ¬ ((0 : Int) = 3) := by
  exact ⟨rfl, by decide⟩

/-- Claim C2, amended: if any filter or search predicate was applied the
total is the direct count and the counter is never consulted; otherwise
the counters row is consulted, and the direct-count fallback is taken
exactly when that read returns an error — a missing counter row yields
no error and leaves the total at the zero value `0`, with no fallback. -/
theorem list_total_policy (stringCols allowedQueryFields : List String)
    (params : List (String × String)) (counters : List (String × Int))
    (table : String) (infraErr : Bool) (directCount : Int) :
    (useCounterFlag stringCols allowedQueryFields params = false →
      listTotal stringCols allowedQueryFields params counters table infraErr directCount
        = { total := directCount, consultedCounter := false, usedFallback := false })
    ∧ (useCounterFlag stringCols allowedQueryFields params = true → infraErr = true →
      listTotal stringCols allowedQueryFields params counters table infraErr directCount
        = { total := directCount, consultedCounter := true, usedFallback := true })
    ∧ (∀ v : Int, useCounterFlag stringCols allowedQueryFields params = true →
      infraErr = false →
      (counters.filter (fun p => p.1 == table)).map Prod.snd = [v] →
      listTotal stringCols allowedQueryFields params counters table infraErr directCount
        = { total := v, consultedCounter := true, usedFallback := false })
    ∧ (useCounterFlag stringCols allowedQueryFields params = true → infraErr = false →
      counters.filter (fun p => p.1 == table) = [] →
      listTotal stringCols allowedQueryFields params counters table infraErr directCount
        = { total := 0, consultedCounter := true, usedFallback := false }) := by
  refine ⟨fun h => ?_, fun h hie => ?_, fun v h hie hrow => ?_, fun h hie hrow => ?_⟩
  · simp [listTotal, h]
  · simp [listTotal, h, hie, rawSelectCounter]
  · simp [listTotal, h, hie, rawSelectCounter, hrow]
  · simp [listTotal, h, hie, rawSelectCounter, hrow]

/-- Witness for `list_total_policy` at concrete inputs: a present
counters row `("users", 5)` is returned as the total, and an applied
equality filter forces the direct count. -/
theorem list_total_policy_witness :
    listTotal ["username", "email", "password"] ["username", "email"]
        [] [("users", 5)] "users" false 3
      = { total := 5, consultedCounter := true, usedFallback := false }
    ∧ listTotal ["username", "email", "password"] ["username", "email"]
        [("username", "a")] [("users", 5)] "users" false 3
      = { total := 3, consultedCounter := false, usedFallback := false } := by
  constructor
  · exact (list_total_policy ["username", "email", "password"] ["username", "email"]
      [] [("users", 5)] "users" false 3).2.2.1 5 (by decide) rfl (by decide)
  · exact (list_total_policy ["username", "email", "password"] ["username", "email"]
      [("username", "a")] [("users", 5)] "users" false 3).1 (by decide)

/-- Claim C6: the whitelist test `ExistsIn(allowedQueryFields, key)` runs
on the unmodified parameter key, `_contains` suffix included, so for the
registered model (whose `ctags` names are plain field names) a
`<field>_contains` key never reaches the LIKE branch: `username_contains`
is silently dropped instead of adding a substring filter on `username`.
Equality filters for plain Queryable keys and the silent dropping of
unknown keys behave as claimed. -/
theorem contains_filter_unreachable :
    processParam ["username", "email", "password"] "username_contains" "ab" = none
    ∧ appliedFilters ["username", "email", "password"] [("username_contains", "ab")] = []
    ∧ processParam ["username", "email", "password"] "username" "ab"
      = some (.fieldEq "username" "ab")
    ∧ processParam ["username", "email", "password"] "nosuchfield" "x" = none
    ∧ processParam ["username", "email", "password"] "page" "2" = none := by
  exact ⟨rfl, rfl, rfl, rfl, rfl⟩

/-- Claim C8, counterexample: the page parameter has no lower clamp — a
request with `page=0` yields an effective page of `0 < 1` and a row
offset of `(0 - 1) * 10 = -10 < 0`, refuting "the effective page is at
least 1" and "the row offset is never negative".  The offset can also go
negative through 64-bit overflow alone: `page=9223372036854775807` (the
int64 maximum, accepted by `Atoi`) with `page_size=10` wraps to `-20`. -/
theorem page_not_clamped_below :
    effPage [("page", "0")] = 0
    ∧ rowOffset [("page", "0")] = -10
    ∧ ¬ (1 ≤ effPage [("page", "0")])
    ∧ rowOffset [("page", "0")] < 0
    ∧ rowOffset [("page", "9223372036854775807"), ("page_size", "10")] = -20 := by
  refine ⟨by decide, by decide, by decide, by decide, by decide⟩

/-- Claim C8, amended: `page` defaults to 1 and `page_size` to 10 when
the parameters are absent, and `page_size` is clamped to at most 10000,
so the limit never exceeds 10000; but no lower clamp is applied to
`page`, so a page parameter of 0, negative, or non-numeric yields an
effective page below 1 and a negative row offset. -/
theorem pagination_defaults_and_clamp (params : List (String × String)) :
    (params.find? (fun p => p.1 == "page") = none → effPage params = 1)
    ∧ (params.find? (fun p => p.1 == "page_size") = none → effPageSize params = 10)
    ∧ effPageSize params ≤ 10000 := by
  refine ⟨fun h => ?_, fun h => ?_, ?_⟩
  · simp only [effPage, getQuery, h]
    decide
  · simp only [effPageSize, getQuery, h]
    decide
  · exact le_trans (min_le_right _ _) (by norm_num [MaxPageSize])

/-- Witness for `pagination_defaults_and_clamp` on the empty query
string: defaults 1 and 10, and the 10000 clamp. -/
theorem pagination_defaults_and_clamp_witness :
    effPage [] = 1 ∧ effPageSize [] = 10 ∧ effPageSize [] ≤ 10000 := by
  exact ⟨(pagination_defaults_and_clamp []).1 rfl,
    (pagination_defaults_and_clamp []).2.1 rfl,
    (pagination_defaults_and_clamp []).2.2⟩

/-! ## `TransactionMiddleware` (`middlewares/transaction.go`) -/

/-- How the wrapped handler chain terminates: by panicking, or normally
with `len(c.Errors) > 0` or not. -/
inductive HandlerOutcome where
  | panics
  | completes (errorsRecorded : Bool)
  deriving DecidableEq, Repr

/-- The transaction-relevant events of one request, in program order. -/
inductive TxEvent where
  | beginTx
  | commitAttempt (ok : Bool)
  | rollback
  | reraise
  deriving DecidableEq, Repr

/-- The event trace of `TransactionMiddleware`: `tx := db.Begin()`; on a
recovered panic `tx.Rollback()` then `panic(r)` (the code after
`c.Next()` never runs); on normal completion `tx.Rollback()` when errors
were recorded, else `tx.Commit()`, with `tx.Rollback()` when the commit
itself returns an error. -/
def transactionMiddleware (o : HandlerOutcome) (commitFails : Bool) : List TxEvent :=
  match o with
  | .panics => [.beginTx, .rollback, .reraise]
  | .completes errs =>
    if errs then [.beginTx, .rollback]
    else if commitFails then [.beginTx, .commitAttempt false, .rollback]
    else [.beginTx, .commitAttempt true]

/-- An event that finalizes the transaction: a successful commit or a
rollback.  (A failed commit attempt does not finalize; the code then
rolls back.) -/
def finalizes : TxEvent → Bool
  | .commitAttempt ok => ok
  | .rollback => true
  | _ => false

/-- Claim C4: for every request, exactly one finalization (successful
commit or rollback) occurs — never both, never neither; a panic rolls
back and re-raises; recorded errors roll back; otherwise commit is
attempted, a failed commit being followed by a rollback. -/
theorem transaction_exactly_one_finalization (o : HandlerOutcome) (commitFails : Bool) :
    (transactionMiddleware o commitFails).countP finalizes = 1
    ∧ (o = .panics →
        transactionMiddleware o commitFails = [.beginTx, .rollback, .reraise])
    ∧ (o = .completes true →
        transactionMiddleware o commitFails = [.beginTx, .rollback])
    ∧ (o = .completes false → commitFails = false →
        transactionMiddleware o commitFails = [.beginTx, .commitAttempt true])
    ∧ (o = .completes false → commitFails = true →
        transactionMiddleware o commitFails
          = [.beginTx, .commitAttempt false, .rollback]) := by
  cases o with
  | panics => cases commitFails <;> exact ⟨rfl, fun _ => rfl, by simp, by simp, by simp⟩
  | completes errs => cases errs <;> cases commitFails <;>
      refine ⟨rfl, by simp, ?_, ?_, ?_⟩ <;> simp [transactionMiddleware]

/-- Witness for `transaction_exactly_one_finalization`: the
commit-failure path produces one finalization, a rollback after the
failed commit attempt. -/
theorem transaction_exactly_one_finalization_witness :
    (transactionMiddleware (.completes false) true).countP finalizes = 1
    ∧ transactionMiddleware (.completes false) true
      = [.beginTx, .commitAttempt false, .rollback] := by
  exact ⟨(transaction_exactly_one_finalization (.completes false) true).1,
    (transaction_exactly_one_finalization (.completes false) true).2.2.2.2 rfl rfl⟩

/-! ## `genericCreate` (`controllers/generic.go` lines 221-260) -/

/-- One element of the parsed request batch, as seen by the create loop:
whether `BindContext` succeeds, whether `db.Create` succeeds, and the
record value bound into the fresh model instance. -/
structure CreateInput (α : Type) where
  bindOk : Bool
  insertOk : Bool
  record : α
  deriving DecidableEq, Repr

/-- The `for i := 0; i < len(context); i++` loop of `genericCreate`,
threading the freshly re-created model pointer: a bind or insert failure
records a request error (`c.Error`), writes the 400 response and
returns, so later records are never processed; on full success the 201
response serializes the last bound instance.  Returns
(rows inserted in this transaction, whether an error was recorded,
the model instance serialized by the final `c.JSON`). -/
def genericCreateLoop {α : Type} (ptr : α) (inserted : List α) :
    List (CreateInput α) → List α × Bool × α
  | [] => (inserted, false, ptr)
  | r :: rest =>
    if !r.bindOk then (inserted, true, ptr)
    else if !r.insertOk then (inserted, true, r.record)
    else genericCreateLoop r.record (inserted ++ [r.record]) rest

/-- The store visible after the request, given the transaction
middleware: recorded errors (and failed commits) roll the transaction
back to the initial store, otherwise the transaction's writes commit. -/
def requestFinalStore {α : Type} (initial : α) (txResult : α × Bool)
    (commitFails : Bool) : α :=
  if txResult.2 then initial else if commitFails then initial else txResult.1

theorem genericCreateLoop_ok_front {α : Type} (pre : List (CreateInput α))
    (rest : List (CreateInput α)) (ptr : α) (inserted : List α)
    (hpre : ∀ p ∈ pre, p.bindOk = true ∧ p.insertOk = true) :
    genericCreateLoop ptr inserted (pre ++ rest)
      = genericCreateLoop ((pre.map (·.record)).getLastD ptr)
          (inserted ++ pre.map (·.record)) rest := by
  induction pre generalizing ptr inserted with
  | nil => simp
  | cons p ps ih =>
    have hp := hpre p (by simp)
    have hps : ∀ q ∈ ps, q.bindOk = true ∧ q.insertOk = true :=
      fun q hq => hpre q (by simp [hq])
    simp only [List.cons_append, genericCreateLoop, hp.1, hp.2, Bool.not_true,
      Bool.false_eq_true, if_false, List.append_eq]
    rw [ih _ _ hps]
    simp only [List.map_cons, List.getLastD_cons, List.append_assoc,
      List.singleton_append]

/-- Claim C5: in a batch Create where every record before some failing
record binds and inserts successfully and that record fails to bind or
to insert, the loop stops (no later record is inserted), an error is
recorded against the request, and after the transaction middleware the
store holds none of the batch's records — zero committed. -/
theorem batch_create_atomic {α : Type} (store : List α) (ptr : α)
    (pre : List (CreateInput α)) (bad : CreateInput α) (post : List (CreateInput α))
    (commitFails : Bool)
    (hpre : ∀ p ∈ pre, p.bindOk = true ∧ p.insertOk = true)
    (hbad : bad.bindOk = false ∨ bad.insertOk = false) :
    (genericCreateLoop ptr store (pre ++ bad :: post)).1 = store ++ pre.map (·.record)
    ∧ (genericCreateLoop ptr store (pre ++ bad :: post)).2.1 = true
    ∧ requestFinalStore store
        ((genericCreateLoop ptr store (pre ++ bad :: post)).1,
         (genericCreateLoop ptr store (pre ++ bad :: post)).2.1) commitFails = store := by
  rw [genericCreateLoop_ok_front pre (bad :: post) ptr store hpre]
  have hstep : genericCreateLoop ((pre.map (·.record)).getLastD ptr)
      (store ++ pre.map (·.record)) (bad :: post)
      = (store ++ pre.map (·.record), true,
          if bad.bindOk then bad.record else (pre.map (·.record)).getLastD ptr) := by
    rcases hbad with h | h
    · simp [genericCreateLoop, h]
    · cases hb : bad.bindOk <;> simp [genericCreateLoop, h, hb]
  rw [hstep]
  exact ⟨rfl, rfl, by simp [requestFinalStore]⟩

/-- Witness for `batch_create_atomic`: a batch of five where record 3
fails to insert leaves the transaction with only the first two rows and
the committed store with none of the five. -/
theorem batch_create_atomic_witness :
    (genericCreateLoop (0 : Nat) [] [⟨true, true, 1⟩, ⟨true, true, 2⟩,
        ⟨true, false, 3⟩, ⟨true, true, 4⟩, ⟨true, true, 5⟩]).1 = [1, 2]
    ∧ (genericCreateLoop (0 : Nat) [] [⟨true, true, 1⟩, ⟨true, true, 2⟩,
        ⟨true, false, 3⟩, ⟨true, true, 4⟩, ⟨true, true, 5⟩]).2.1 = true
    ∧ requestFinalStore [] ((genericCreateLoop (0 : Nat) [] [⟨true, true, 1⟩,
        ⟨true, true, 2⟩, ⟨true, false, 3⟩, ⟨true, true, 4⟩,
        ⟨true, true, 5⟩]).1, (genericCreateLoop (0 : Nat) [] [⟨true, true, 1⟩,
        ⟨true, true, 2⟩, ⟨true, false, 3⟩, ⟨true, true, 4⟩,
        ⟨true, true, 5⟩]).2.1) false = [] := by
  have h := batch_create_atomic ([] : List Nat) 0
    [⟨true, true, 1⟩, ⟨true, true, 2⟩] ⟨true, false, 3⟩
    [⟨true, true, 4⟩, ⟨true, true, 5⟩] false (by decide) (by decide)
  exact ⟨h.1, h.2.1, h.2.2⟩

/-- Claim C10: a batch Create over `N ≥ 1` records that all bind and
insert successfully inserts all of them in order, records no error, and
the 201 response body is the record bound last — not the list of all
created records. -/
theorem batch_create_response_last {α : Type} (store : List α) (ptr : α)
    (pre : List (CreateInput α)) (last : CreateInput α)
    (hok : ∀ p ∈ pre ++ [last], p.bindOk = true ∧ p.insertOk = true) :
    genericCreateLoop ptr store (pre ++ [last])
      = (store ++ (pre ++ [last]).map (·.record), false, last.record) := by
  have hlast := hok last (by simp)
  rw [genericCreateLoop_ok_front pre [last] ptr store
    (fun p hp => hok p (by simp [hp]))]
  simp [genericCreateLoop, hlast.1, hlast.2]

/-- Witness for `batch_create_response_last`: creating `[7, 8, 9]`
inserts all three in order and responds with only `9`. -/
theorem batch_create_response_last_witness :
    genericCreateLoop (0 : Nat) [] [⟨true, true, 7⟩, ⟨true, true, 8⟩,
        ⟨true, true, 9⟩] = ([7, 8, 9], false, 9) := by
  exact batch_create_response_last [] 0 [⟨true, true, 7⟩, ⟨true, true, 8⟩]
    ⟨true, true, 9⟩ (by decide)

/-! ## `genericUpdate` (`controllers/generic.go` lines 406-551) -/

/-- A JSON scalar value of an update payload. -/
inductive JVal where
  | s (v : String)
  | n (v : Int)
  | b (v : Bool)
  deriving DecidableEq, Repr

/-- A persisted row as seen by Update: its id and its named fields. -/
structure URow where
  rid : JVal
  fields : List (String × JVal)
  deriving DecidableEq, Repr

def lookupField (fs : List (String × JVal)) (k : String) : Option JVal :=
  (fs.find? (fun p => p.1 == k)).map Prod.snd

def setField (fs : List (String × JVal)) (k : String) (v : JVal) :
    List (String × JVal) :=
  match fs with
  | [] => [(k, v)]
  | (k', v') :: rest => if k' == k then (k', v) :: rest else (k', v') :: setField rest k v

/-- Apply an update map to a row's fields (`db...Updates(filteredUpdates)`
writes exactly the keys of the map). -/
def applyUpdates (fs : List (String × JVal)) (upds : List (String × JVal)) :
    List (String × JVal) :=
  upds.foldl (fun acc kv => setField acc kv.1 kv.2) fs

/-- `db.Model(modelPtr).Where("id = ?", id).Updates(filteredUpdates)`. -/
def updStore (store : List URow) (idv : JVal) (upds : List (String × JVal)) :
    List URow :=
  store.map (fun r => if r.rid == idv then { r with fields := applyUpdates r.fields upds } else r)

/-- Lines 486-491 / 527-532: the payload's field set intersected with
the `ctags` `u` whitelist. -/
def filterUpdates (allowed : List String) (obj : List (String × JVal)) :
    List (String × JVal) :=
  obj.filter (fun kv => allowed.contains kv.1)

inductive UpdResp where
  | ok
  | badRequest
  deriving DecidableEq, Repr

/-- Single update (lines 510-550): intersect with the whitelist; empty
intersection → 400 before any store write; otherwise apply only the
whitelisted fields to the row with the given id. -/
def genericSingleUpdate (allowed : List String) (store : List URow) (idv : JVal)
    (obj : List (String × JVal)) : UpdResp × List URow :=
  let fu := filterUpdates allowed obj
  if fu.isEmpty then (.badRequest, store)
  else (.ok, updStore store idv fu)

/-- Batch update (lines 429-509): one record at a time; a record without
an `id` key, or with an empty whitelist intersection, records a request
error (`c.Error`), writes the 400 response and returns.  The returned
flag is whether an error was recorded against the request. -/
def genericBatchUpdate (allowed : List String) (store : List URow) :
    List (List (String × JVal)) → List URow × Bool
  | [] => (store, false)
  | obj :: rest =>
    match lookupField obj "id" with
    | none => (store, true)
    | some idv =>
      let fu := filterUpdates allowed obj
      if fu.isEmpty then (store, true)
      else genericBatchUpdate allowed (updStore store idv fu) rest

theorem lookupField_setField_ne (fs : List (String × JVal)) (k k' : String)
    (v : JVal) (h : ¬ k' = k) :
    lookupField (setField fs k' v) k = lookupField fs k := by
  induction fs with
  | nil => simp [setField, lookupField, h]
  | cons p rest ih =>
    by_cases hk : p.1 = k'
    · simp only [setField]
      rw [if_pos (by simp [hk])]
      simp [lookupField, List.find?_cons, hk, h]
    · simp only [setField]
      rw [if_neg (by simp [hk])]
      by_cases hpk : p.1 = k
      · simp [lookupField, List.find?_cons, hpk]
      · simpa [lookupField, List.find?_cons, hpk] using ih

theorem lookupField_applyUpdates_notMem (fs : List (String × JVal))
    (upds : List (String × JVal)) (k : String)
    (h : ∀ kv ∈ upds, ¬ kv.1 = k) :
    lookupField (applyUpdates fs upds) k = lookupField fs k := by
  induction upds generalizing fs with
  | nil => rfl
  | cons kv rest ih =>
    have h1 : ¬ kv.1 = k := h kv (by simp)
    have h2 : ∀ q ∈ rest, ¬ q.1 = k := fun q hq => h q (by simp [hq])
    simp only [applyUpdates, List.foldl_cons]
    rw [show (rest.foldl (fun acc p => setField acc p.1 p.2) (setField fs kv.1 kv.2))
        = applyUpdates (setField fs kv.1 kv.2) rest from rfl]
    rw [ih _ h2, lookupField_setField_ne _ _ _ _ h1]

theorem filterUpdates_keys_allowed (allowed : List String)
    (obj : List (String × JVal)) (k : String) (hk : allowed.contains k = false) :
    ∀ kv ∈ filterUpdates allowed obj, ¬ kv.1 = k := by
  intro kv hkv heq
  have hmem : allowed.contains kv.1 = true := (List.mem_filter.mp hkv).2
  rw [heq, hk] at hmem
  exact Bool.false_ne_true hmem

theorem lookupField_updStore_notAllowed (store : List URow) (idv : JVal)
    (allowed : List String) (obj : List (String × JVal)) (k : String)
    (hk : allowed.contains k = false) :
    (updStore store idv (filterUpdates allowed obj)).map (fun r => lookupField r.fields k)
      = store.map (fun r => lookupField r.fields k) := by
  have hkeys := filterUpdates_keys_allowed allowed obj k hk
  induction store with
  | nil => rfl
  | cons r rest ih =>
    simp only [updStore, List.map_cons] at ih ⊢
    by_cases hr : (r.rid == idv) = true
    · rw [if_pos hr]
      rw [ih]
      simp only [lookupField_applyUpdates_notMem _ _ _ hkeys]
    · rw [if_neg hr, ih]

theorem genericBatchUpdate_notAllowed (allowed : List String) (k : String)
    (hk : allowed.contains k = false) (objs : List (List (String × JVal))) :
    ∀ store : List URow,
      ((genericBatchUpdate allowed store objs).1).map (fun r => lookupField r.fields k)
        = store.map (fun r => lookupField r.fields k) := by
  induction objs with
  | nil => intro store; rfl
  | cons obj rest ih =>
    intro store
    simp only [genericBatchUpdate]
    split
    · rfl
    · split
      · rfl
      · rw [ih, lookupField_updStore_notAllowed store _ allowed obj k hk]

theorem genericBatchUpdate_empty_intersection_errors (allowed : List String)
    (objs : List (List (String × JVal)))
    (h : ∃ obj ∈ objs, (filterUpdates allowed obj).isEmpty = true) :
    ∀ store : List URow, (genericBatchUpdate allowed store objs).2 = true := by
  induction objs with
  | nil => exact absurd h (by simp)
  | cons obj rest ih =>
    intro store
    simp only [genericBatchUpdate]
    split
    · rfl
    · split
      · rfl
      · rename_i he
        rcases h with ⟨o, ho, hoe⟩
        rcases List.mem_cons.mp ho with rfl | hor
        · exact absurd hoe he
        · exact ih ⟨o, hor, hoe⟩ _

/-- Claim C3: the field set of each Update payload record is intersected
with the Updatable (`ctags` `u`) whitelist; a single-record update with
an empty intersection fails with 400 and leaves the store untouched; a
batch record with an empty intersection records a request error so the
transaction middleware rolls the whole request back; and for any field
outside the whitelist, neither the single nor the batch path ever changes
that field on any row. -/
theorem update_whitelist_enforced (allowed : List String) (store : List URow)
    (idv : JVal) (obj : List (String × JVal)) (objs : List (List (String × JVal)))
    (k : String) (commitFails : Bool) (hk : allowed.contains k = false) :
    ((filterUpdates allowed obj).isEmpty = true →
      genericSingleUpdate allowed store idv obj = (.badRequest, store))
    ∧ ((genericSingleUpdate allowed store idv obj).2).map (fun r => lookupField r.fields k)
        = store.map (fun r => lookupField r.fields k)
    ∧ ((∃ o ∈ objs, (filterUpdates allowed o).isEmpty = true) →
      (genericBatchUpdate allowed store objs).2 = true)
    ∧ ((genericBatchUpdate allowed store objs).2 = true →
      requestFinalStore store (genericBatchUpdate allowed store objs) commitFails = store)
    ∧ ((genericBatchUpdate allowed store objs).1).map (fun r => lookupField r.fields k)
        = store.map (fun r => lookupField r.fields k) := by
  refine ⟨fun he => ?_, ?_, fun hex => ?_, fun herr => ?_, ?_⟩
  · simp [genericSingleUpdate, he]
  · by_cases he : (filterUpdates allowed obj).isEmpty = true
    · simp [genericSingleUpdate, he]
    · simp only [genericSingleUpdate, he, if_false]
      exact lookupField_updStore_notAllowed store idv allowed obj k hk
  · exact genericBatchUpdate_empty_intersection_errors allowed objs hex store
  · simp [requestFinalStore, herr]
  · exact genericBatchUpdate_notAllowed allowed k hk objs store

/-- Witness for `update_whitelist_enforced` on the registered `User`
whitelist `["username", "email", "password"]`: a payload containing only
the non-updatable key `created_at` is rejected with the store unchanged,
and the non-updatable column is untouched by a mixed batch update. -/
theorem update_whitelist_enforced_witness :
    genericSingleUpdate ["username", "email", "password"]
        [{ rid := .n 1, fields := [("username", .s "u"), ("created_at", .n 9)] }]
        (.n 1) [("created_at", .n 5)]
      = (.badRequest,
          [{ rid := .n 1, fields := [("username", .s "u"), ("created_at", .n 9)] }])
    ∧ ((genericBatchUpdate ["username", "email", "password"]
          [{ rid := .n 1, fields := [("username", .s "u"), ("created_at", .n 9)] }]
          [[("id", .n 1), ("username", .s "w"), ("created_at", .n 5)]]).1).map
            (fun r => lookupField r.fields "created_at")
      = [URow.mk (JVal.n 1) [("username", JVal.s "u"), ("created_at", JVal.n 9)]].map
          (fun r => lookupField r.fields "created_at") := by
  constructor
  · exact (update_whitelist_enforced ["username", "email", "password"]
      [{ rid := .n 1, fields := [("username", .s "u"), ("created_at", .n 9)] }]
      (.n 1) [("created_at", .n 5)] [] "created_at" false (by decide)).1 (by decide)
  · exact (update_whitelist_enforced ["username", "email", "password"]
      [{ rid := .n 1, fields := [("username", .s "u"), ("created_at", .n 9)] }]
      (.n 1) [("created_at", .n 5)]
      [[("id", .n 1), ("username", .s "w"), ("created_at", .n 5)]]
      "created_at" false (by decide)).2.2.2.2

/-! ## `genericBatchDelete` (`controllers/generic.go` lines 263-354) -/

/-- Go `strings.Split(s, ",")`. -/
def splitCommaAux : List Char → List Char → List (List Char)
  | [], acc => [acc.reverse]
  | c :: cs, acc =>
    if c = ',' then acc.reverse :: splitCommaAux cs [] else splitCommaAux cs (c :: acc)

def splitComma (s : String) : List String :=
  (splitCommaAux s.data []).map (fun cs => String.mk cs)

/-- Go `strconv.Atoi` applied to every comma-separated piece of the
`ids` query parameter; any piece failing to parse is the 400 path. -/
def parseIdsCSV (s : String) : Option (List Int) :=
  (splitComma s).mapM atoiOpt

inductive BDResult where
  | deleted (ids : List Int)
  | badRequest
  deriving DecidableEq, Repr

/-- The id-collection logic of `genericBatchDelete`: the `switch
c.ContentType()` consults *only* the JSON body for
`application/json` requests (`jsonIds = none` covers both a failed
`ShouldBindJSON` and a body without an `ids` key — ids stays empty);
for every other content type the `ids` query parameter is used when
non-empty (any `Atoi` failure → 400), else the form body's `ids` field
(`formIdsJson = none` covers a missing field or a failed
`json.Unmarshal`).  An empty id list is a 400. -/
def genericBatchDelete (contentType : String) (jsonIds : Option (List Int))
    (queryIdsParam : String) (formIdsJson : Option (List Int)) : BDResult :=
  if contentType == "application/json" then
    match jsonIds with
    | some l => if l.isEmpty then .badRequest else .deleted l
    | none => .badRequest
  else if queryIdsParam ≠ "" then
    match parseIdsCSV queryIdsParam with
    | some l => if l.isEmpty then .badRequest else .deleted l
    | none => .badRequest
  else
    match formIdsJson with
    | some l => if l.isEmpty then .badRequest else .deleted l
    | none => .badRequest

/-- Claim C7, counterexample: a JSON request whose body carries no ids
but whose query string carries `ids=1,2` is rejected with 400 — the
query parameter is never consulted for `application/json` requests, so
the claimed precedence order (first non-empty of JSON body, query,
form) does not hold. -/
theorem json_delete_ignores_query_ids :
    genericBatchDelete "application/json" none "1,2" none = .badRequest
    ∧ genericBatchDelete "application/json" none "1,2" none ≠ .deleted [1, 2] := by
  exact ⟨rfl, by decide⟩

/-- Claim C7, amended: the id source is selected by Content-Type, not by
first-non-empty precedence: an `application/json` request takes ids only
from the JSON body (query and form are ignored entirely); any other
request takes the comma-separated `ids` query parameter when it is
non-empty, and the form body's `ids` field otherwise. -/
theorem batch_delete_source_selection (jsonIds : Option (List Int))
    (queryIdsParam : String) (formIdsJson : Option (List Int)) :
    (∀ (q : String) (f : Option (List Int)),
      genericBatchDelete "application/json" jsonIds queryIdsParam formIdsJson
        = genericBatchDelete "application/json" jsonIds q f)
    ∧ (∀ ct : String, (ct == "application/json") = false → queryIdsParam ≠ "" →
      ∀ (j : Option (List Int)) (f : Option (List Int)),
        genericBatchDelete ct j queryIdsParam f
          = genericBatchDelete ct jsonIds queryIdsParam formIdsJson)
    ∧ (∀ ct : String, (ct == "application/json") = false →
      ∀ (l : List Int), parseIdsCSV queryIdsParam = some l → l ≠ [] →
        genericBatchDelete ct jsonIds queryIdsParam formIdsJson = .deleted l)
    ∧ (∀ ct : String, (ct == "application/json") = false → queryIdsParam = "" →
      ∀ j : Option (List Int),
        genericBatchDelete ct j queryIdsParam formIdsJson
          = genericBatchDelete ct jsonIds queryIdsParam formIdsJson) := by
  refine ⟨fun q f => ?_, fun ct hct hq j f => ?_, fun ct hct l hl hne => ?_,
    fun ct hct hq j => ?_⟩
  · simp [genericBatchDelete]
  · simp [genericBatchDelete, hct, hq]
  · have hq : queryIdsParam ≠ "" := by
      intro h
      rw [h, show parseIdsCSV "" = none from rfl] at hl
      exact Option.noConfusion hl
    simp [genericBatchDelete, hct, hq, hl, List.isEmpty_iff, hne]
  · simp [genericBatchDelete, hct, hq]

/-- Witness for `batch_delete_source_selection`: a non-JSON request with
`ids=1,2` in the query string deletes ids 1 and 2 whatever the bodies
hold. -/
theorem batch_delete_source_selection_witness :
    genericBatchDelete "text/plain" none "1,2" (some [9]) = .deleted [1, 2] := by
  exact (batch_delete_source_selection none "1,2" (some [9])).2.2.1
    "text/plain" (by decide) [1, 2] (by decide) (by decide)

/-! ## `genericDelete` (`controllers/generic.go` lines 383-403) -/

/-- gorm soft delete of `db.Delete(modelPtr, ids)` on a model carrying
`soft_delete.DeletedAt`: `UPDATE t SET deleted_at = ts WHERE id IN ids
AND deleted_at = 0`.  Returns the updated rows and `RowsAffected`; an
UPDATE matching zero rows is not an error in gorm. -/
def softDeleteRun (ts : Nat) (ids : List Nat) : List Row → List Row × Nat
  | [] => ([], 0)
  | r :: rest =>
    let (rs, n) := softDeleteRun ts ids rest
    if ids.contains r.id && r.deleted_at = 0 then
      ({ r with deleted_at := ts + 1 } :: rs, n + 1)
    else (r :: rs, n)

inductive DelResp where
  | ok (deletedCount : Nat)
  | badRequest
  deriving DecidableEq, Repr

/-- `genericDelete`: soft-delete the single path id and answer 200 with
`"deleted <RowsAffected>"`; the 400 branch is reached only on a store
error, and an affected count of zero is not one. -/
def genericDelete (rows : List Row) (id : Nat) (ts : Nat) : DelResp × List Row :=
  let (rs, n) := softDeleteRun ts [id] rows
  (.ok n, rs)

theorem softDeleteRun_ids_preserved (ts : Nat) (ids : List Nat) (rows : List Row) :
    (softDeleteRun ts ids rows).1.map Row.id = rows.map Row.id := by
  induction rows with
  | nil => rfl
  | cons r rest ih =>
    simp only [softDeleteRun]
    by_cases hc : (ids.contains r.id && r.deleted_at = 0) = true
    · rw [if_pos hc]; simpa using ih
    · rw [if_neg hc]; simpa using ih

/-- Claim C9: deleting an identifier whose row is already soft-deleted
affects 0 rows, answers success reporting 0 deleted (not an error), and
leaves the store unchanged; and for every input, deletion is logical —
the row set (by id) is preserved, no row is ever physically removed. -/
theorem idempotent_soft_delete (rows : List Row) (id ts : Nat)
    (h : ∀ r ∈ rows, r.id = id → ¬ r.deleted_at = 0) :
    genericDelete rows id ts = (.ok 0, rows)
    ∧ ∀ (rows' : List Row) (id' ts' : Nat),
      (genericDelete rows' id' ts').2.map Row.id = rows'.map Row.id := by
  constructor
  · have hrun : softDeleteRun ts [id] rows = (rows, 0) := by
      induction rows with
      | nil => rfl
      | cons r rest ih =>
        have hr : ([id].contains r.id && r.deleted_at = 0) = false := by
          by_cases hid : r.id = id
          · have := h r (by simp) hid
            simp [this]
          · simp [List.contains, hid]
        simp only [softDeleteRun, hr, Bool.false_eq_true, if_false]
        rw [ih (fun q hq => h q (by simp [hq]))]
    simp [genericDelete, hrun]
  · intro rows' id' ts'
    simpa [genericDelete] using softDeleteRun_ids_preserved ts' [id'] rows'

/-- Witness for `idempotent_soft_delete`: deleting id 1, already
soft-deleted at timestamp 5, affects zero rows, answers success and
leaves the row in place. -/
theorem idempotent_soft_delete_witness :
    genericDelete [{ id := 1, deleted_at := 5 }] 1 7
      = (.ok 0, [{ id := 1, deleted_at := 5 }]) := by
  exact (idempotent_soft_delete [{ id := 1, deleted_at := 5 }] 1 7 (by decide)).1

end Minigo
